import Mathlib

/-!
A shallow embedding, in Lean 4, of the core of the `githubhot` pipeline
(`src/crawler.py` and `src/ai_summarizer.py`), together with theorems that
settle the frozen claims about its specification.

Modelling conventions:
* Python strings are `List Char`; Python integers are `Int` (arbitrary
  precision, no overflow); Python `None`-able values are `Option`.
* Whitespace (`str.strip`, regex `\s`, `str.split()`) is modelled over the
  six ASCII whitespace characters Python recognises; the Unicode extensions
  are irrelevant to every concrete input used here.
* Code that can raise returns `Except PyErr _`; `try/except` blocks become
  explicit matches on such results.
* Network responses (trending HTML, search API JSON, README endpoints) and
  LLM replies are inputs of the embedded functions: the HTML/JSON *decoding*
  layers (BeautifulSoup selectors, `response.json()`) are represented by the
  per-record field data they extract, and the code downstream of that layer
  is translated faithfully.
-/

/-! ## Python string primitives -/

/-- The ASCII whitespace characters recognised by Python's `str.strip()`,
`str.split()` and the regex class `\s`. -/
def isPySpace (c : Char) : Bool :=
  c == ' ' || c == '\t' || c == '\n' || c == '\r' || c == '\x0b' || c == '\x0c'

/-- Remove trailing characters satisfying `p` (helper for Python `strip`). -/
def dropTrailing (p : Char → Bool) (l : List Char) : List Char :=
  (l.reverse.dropWhile p).reverse

/-- Python `str.strip()` (no argument): drop leading and trailing whitespace. -/
def pyStripWs (l : List Char) : List Char :=
  dropTrailing isPySpace (l.dropWhile isPySpace)

/-- Python `str.strip("/")`: drop leading and trailing `'/'` characters. -/
def pyStripSlash (l : List Char) : List Char :=
  dropTrailing (fun c => c == '/') (l.dropWhile (fun c => c == '/'))

/-- Python `a or b` on strings: `b` if `a` is falsy (empty), else `a`. -/
def pyOrStr (a b : List Char) : List Char :=
  if a.isEmpty then b else a

/-- Python `str.isdigit()` restricted to ASCII digits: non-empty and all digits. -/
def pyIsDigits (l : List Char) : Bool :=
  !l.isEmpty && l.all (·.isDigit)

/-- Numeric value of an all-digit string. -/
def digitsVal (l : List Char) : Nat :=
  l.foldl (fun n c => 10 * n + (c.toNat - '0'.toNat)) 0

/-- Worker for Python `str.split()` (split on whitespace runs, no empty parts).
`acc` holds the current word, reversed. -/
def pySplitGo : List Char → List Char → List (List Char)
  | [], acc => if acc.isEmpty then [] else [acc.reverse]
  | c :: t, acc =>
    if isPySpace c then
      if acc.isEmpty then pySplitGo t [] else acc.reverse :: pySplitGo t []
    else pySplitGo t (c :: acc)

/-- Python `str.split()` with no separator argument. -/
def pySplit (l : List Char) : List (List Char) := pySplitGo l []

/-! ## Exceptions -/

/-- The Python exceptions that the embedded code can raise or catch.
`retryError` models `tenacity.RetryError`, which wraps the exception of the
final failed attempt when a `@retry`-decorated call exhausts its attempts. -/
inductive PyErr where
  | jsonDecodeError
  | valueError (msg : List Char)
  | runtimeError (msg : List Char)
  | retryError (e : PyErr)
  | transportError (msg : List Char)
deriving DecidableEq

/-- Python `str(e)` on a modelled exception (exact text is irrelevant; only
emptiness/shape matters to the claims). -/
def errStr : PyErr → List Char
  | .jsonDecodeError => "JSONDecodeError".toList
  | .valueError m => m
  | .runtimeError m => m
  | .retryError e => "RetryError: ".toList ++ errStr e
  | .transportError m => m

/-! ## Crawler data model (`src/crawler.py`) -/

/-- `crawler.Repository`: data class for a GitHub repository. -/
structure Repository where
  name : List Char
  url : List Char
  description : List Char
  stars : Int
  language : List Char
  readme_content : List Char := []
  stars_today : Int := 0
deriving DecidableEq

/-- `Repository.owner`: `self.name.split("/")[0]`. -/
def Repository.owner (r : Repository) : List Char :=
  r.name.takeWhile (fun c => !(c == '/'))

/-- The subset of `config.Settings` the embedded functions read.
(The pydantic bounds are `1 <= max_repos <= 25`, `1 <= top_pick_count <= 5`;
they are not needed as hypotheses by any claim.) -/
structure Settings where
  gemini_api_key : Option (List Char) := none
  anthropic_api_key : Option (List Char) := none
  fallback_model : Option (List Char) := none
  max_repos : Nat := 15
  top_pick_count : Nat := 3

/-- The per-`article.Box-row` field data that the BeautifulSoup selectors in
`_parse_trending_html` extract, before any of the hand-written logic runs:
`name_href` is the `h2 a` element's `href` (absent element ↦ `none`, absent
attribute ↦ `some ""`); the other fields are the stripped text of the
corresponding optional elements. -/
structure ArticleData where
  name_href : Option (List Char) := none
  description_text : Option (List Char) := none
  stars_text : Option (List Char) := none
  language_text : Option (List Char) := none
  stars_today_text : Option (List Char) := none

/-- Star-count parsing inside `_parse_trending_html`:
`stars_text.replace(",", "")` then `int(...) if ....isdigit() else 0`. -/
def parseStars : Option (List Char) → Int
  | none => 0
  | some t =>
    let t' := t.filter (fun c => !(c == ','))
    if pyIsDigits t' then (digitsVal t' : Int) else 0

/-- The body of the per-article loop of `_parse_trending_html`
(lines 119-170 of `crawler.py`): `none` models `continue`, both for the
explicit guards and for the one reachable exception (`today_text.split()[0]`
raises `IndexError` on whitespace-only text, caught by the blanket
`except ... continue`). -/
def parseArticle (a : ArticleData) : Option Repository :=
  match a.name_href with
  | none => none
  | some href =>
    let name := pyStripSlash href
    if name.isEmpty || !(name.contains '/') then none
    else
      let url := "https://github.com/".toList ++ name
      let description := (a.description_text).getD []
      let stars := parseStars a.stars_text
      let language := (a.language_text).getD "Unknown".toList
      match a.stars_today_text with
      | none => some { name, url, description, stars, language, stars_today := 0 }
      | some t =>
        match pySplit t with
        | [] => none
        | tok :: _ =>
          let st := tok.filter (fun c => !(c == ','))
          let stars_today : Int := if pyIsDigits st then digitsVal st else 0
          some { name, url, description, stars, language, stars_today }

/-- `GitHubCrawler._parse_trending_html`: parse every article block, skipping
failures, then cap to `max_repos` (`repos[: self.settings.max_repos]`). -/
def parse_trending_html (st : Settings) (articles : List ArticleData) : List Repository :=
  (articles.filterMap parseArticle).take st.max_repos

/-- One element of the search API response `items` array, as consumed by
`_fetch_via_search_api` (`none` models an absent key or JSON `null`). -/
structure SearchItem where
  full_name : List Char
  html_url : List Char
  description : Option (List Char) := none
  stargazers_count : Option Int := none
  language : Option (List Char) := none
deriving DecidableEq

/-- The `Repository(...)` constructor call inside `_fetch_via_search_api`'s
loop: `item.get("description") or ""`, `item.get("language") or "Unknown"`,
`stars_today=0`. -/
def itemToRepository (it : SearchItem) : Repository :=
  { name := it.full_name
    url := it.html_url
    description := (it.description).getD []
    stars := (it.stargazers_count).getD 0
    language := pyOrStr ((it.language).getD []) "Unknown".toList
    stars_today := 0 }

/-- `GitHubCrawler._fetch_via_search_api`, as a function of the decoded
response `items`. The request carries `per_page = max_repos`, but the loop
appends every item of the response and the returned list is not truncated
client-side. -/
def fetch_via_search_api (items : List SearchItem) : List Repository :=
  items.map itemToRepository

/-! ## README enrichment (`_fetch_readme`, `crawl`) -/

/-- Environment for one `_fetch_readme` call. `api` is the outcome of the
`GET /repos/{name}/readme` request: a raised transport error, or a response
carrying (status code, then — evaluated only on status 200 — the outcome of
`response.json()`, whose `content` field is `none` when absent or empty and
otherwise carries the outcome of `base64.b64decode(...).decode(...)`).
`raw` gives, per conventional README filename, the outcome of the
`raw.githubusercontent.com` probe: a raised error or (status code, text). -/
structure ReadmeEnv where
  api : Except PyErr (Int × Except PyErr (Option (Except PyErr (List Char))))
  raw : List Char → Except PyErr (Int × List Char)

/-- The ordered probe list of `_fetch_readme`'s raw-URL fallback. -/
def readmeNames : List (List Char) :=
  ["README.md".toList, "readme.md".toList, "README".toList, "readme.rst".toList]

/-- The raw-URL fallback loop of `_fetch_readme`: first 200 response wins;
a raised error propagates (to the enclosing `except`). -/
def rawProbe (env : ReadmeEnv) : List (List Char) → Except PyErr (Option (List Char))
  | [] => .ok none
  | n :: ns =>
    match env.raw n with
    | .error e => .error e
    | .ok (status, text) => if status == 200 then .ok (some text) else rawProbe env ns

/-- The `try`-block of `_fetch_readme` (lines 222-241 of `crawler.py`):
`.ok (some t)` = an explicit `return t`, `.ok none` = the loop fell through,
`.error e` = an exception reached the `except`. -/
def fetchReadmeTry (env : ReadmeEnv) : Except PyErr (Option (List Char)) :=
  match env.api with
  | .error e => .error e
  | .ok (status, body) =>
    if status == 200 then
      match body with
      | .error e => .error e
      | .ok none => rawProbe env readmeNames
      | .ok (some dec) =>
        match dec with
        | .error e => .error e
        | .ok text => .ok (some text)
    else rawProbe env readmeNames

/-- `GitHubCrawler._fetch_readme`: the whole body is wrapped in
`try ... except Exception: ...` followed by `return ""`, so every failure
(and the fall-through case) yields the empty string. The `@retry` decorator
on it only retries `httpx.HTTPError`, which can never escape the internal
`except`, so it is the identity here. -/
def fetch_readme (env : ReadmeEnv) : List Char :=
  match fetchReadmeTry env with
  | .ok (some t) => t
  | .ok none => []
  | .error _ => []

/-- `CrawlerResult.source`. -/
inductive Source where
  | trending
  | search_api
deriving DecidableEq

/-- `crawler.CrawlerResult` (the `crawled_at` timestamp is omitted). -/
structure CrawlerResult where
  repos : List Repository := []
  source : Source := .trending
deriving DecidableEq

/-- Environment for one `crawl()` run: outcome of `_fetch_trending_page`
(after its own retries) decoded into article blocks, outcome of the search
API request decoded into items, and a README environment per repository
name. -/
structure CrawlEnv where
  trending : Except PyErr (List ArticleData)
  search : Except PyErr (List SearchItem)
  readme : List Char → ReadmeEnv

/-- The acquisition part of `GitHubCrawler.crawl` (lines 260-283):
try the trending page; on a raised fetch error or an empty parse
(`raise ValueError("No repos parsed...")`, caught by the same `except`),
fall back to the search API; if that also raises, the run fails with
`RuntimeError("All crawling methods failed")`. -/
def crawlAcquire (st : Settings) (env : CrawlEnv) : Except PyErr (List Repository × Source) :=
  let viaSearch : Except PyErr (List Repository × Source) :=
    match env.search with
    | .ok items => .ok (fetch_via_search_api items, .search_api)
    | .error _ => .error (.runtimeError "All crawling methods failed".toList)
  match env.trending with
  | .ok articles =>
    let repos := parse_trending_html st articles
    if repos.isEmpty then viaSearch else .ok (repos, .trending)
  | .error _ => viaSearch

/-- `GitHubCrawler.crawl`: acquisition, then the per-repository README
enrichment loop (`repo.readme_content = self._fetch_readme(repo)`). -/
def crawl (st : Settings) (env : CrawlEnv) (fetchReadmeFlag : Bool) : Except PyErr CrawlerResult :=
  match crawlAcquire st env with
  | .error e => .error e
  | .ok (repos, src) =>
    let repos' :=
      if fetchReadmeFlag && !repos.isEmpty then
        repos.map (fun r => { r with readme_content := fetch_readme (env.readme r.name) })
      else repos
    .ok { repos := repos', source := src }

/-! ## README truncation (`AISummarizer._truncate_readme`)

The two `re.sub` calls are modelled as direct left-to-right scans.  The
pattern `!\s*\(.*?\)` matches `'!'`, then greedy `\s*` followed by a literal
`'('` (since `'('` is not whitespace this is: skip the maximal whitespace
run, then require `'('`), then lazy `.*?` up to the first `')'` with `.` not
matching a newline.  The pattern `<img[^>]*>` matches `"<img"` then
everything up to and including the first `'>'`.  `re.sub` replaces
non-overlapping matches left to right and resumes scanning at each match
end; on a failed match attempt it advances one character.  The scans below
use a character-count fuel equal to the input length, which suffices because
every step consumes at least one character. -/

/-- Lazy `.*?\)` with `.` excluding `'\n'`: the rest of the input after the
first `')'`, failing at a newline or the end of input. -/
def findClose : List Char → Option (List Char)
  | [] => none
  | c :: t => if c = ')' then some t else if c = '\n' then none else findClose t

/-- Attempt to match the tail of `!\s*\(.*?\)` against the input following a
`'!'`; returns the rest of the input after the match. -/
def tryMatch1 (l : List Char) : Option (List Char) :=
  match l.dropWhile isPySpace with
  | [] => none
  | c :: r => if c = '(' then findClose r else none

/-- Fueled scan for `re.sub(r"!\s*\(.*?\)", "", content)`. -/
def sub1Fuel : Nat → List Char → List Char
  | 0, l => l
  | _ + 1, [] => []
  | fuel + 1, c :: rest =>
    if c = '!' then
      match tryMatch1 rest with
      | some rest' => sub1Fuel fuel rest'
      | none => c :: sub1Fuel fuel rest
    else c :: sub1Fuel fuel rest

/-- `re.sub(r"!\s*\(.*?\)", "", content)`. -/
def sub1 (l : List Char) : List Char := sub1Fuel l.length l

/-- `[^>]*>`: the rest of the input after the first `'>'`. -/
def findGt : List Char → Option (List Char)
  | [] => none
  | c :: t => if c = '>' then some t else findGt t

/-- Attempt to match `img[^>]*>` against the input following a `'<'`. -/
def tryImg : List Char → Option (List Char)
  | 'i' :: 'm' :: 'g' :: r => findGt r
  | _ => none

/-- Fueled scan for `re.sub(r"<img[^>]*>", "", content)`. -/
def sub2Fuel : Nat → List Char → List Char
  | 0, l => l
  | _ + 1, [] => []
  | fuel + 1, c :: rest =>
    if c = '<' then
      match tryImg rest with
      | some rest' => sub2Fuel fuel rest'
      | none => c :: sub2Fuel fuel rest
    else c :: sub2Fuel fuel rest

/-- `re.sub(r"<img[^>]*>", "", content)`. -/
def sub2 (l : List Char) : List Char := sub2Fuel l.length l

/-- `MAX_README_CHARS` of `ai_summarizer.py`. -/
def MAX_README_CHARS : Nat := 2000

/-- The truncation marker appended by `_truncate_readme`. -/
def truncMarker : List Char := "\n... (content truncated)".toList

/-- The placeholder for an empty README. -/
def emptyReadmeMsg : List Char := "(README 内容为空)".toList

/-- `AISummarizer._truncate_readme` (lines 161-174 of `ai_summarizer.py`). -/
def truncate_readme (content : List Char) : List Char :=
  if content.isEmpty then emptyReadmeMsg
  else
    let c1 := sub1 content
    let c2 := sub2 c1
    let c3 := if MAX_README_CHARS < c2.length then c2.take MAX_README_CHARS ++ truncMarker else c2
    pyOrStr (pyStripWs c3) emptyReadmeMsg

/-! ## LLM response data and summarizer state (`src/ai_summarizer.py`) -/

/-- The value found under `"score"` in a decoded LLM payload: a JSON integer,
or a string fed to Python `int(...)`. -/
inductive ScoreVal where
  | vint (n : Int)
  | vstr (s : List Char)
deriving DecidableEq

/-- Python `int("...")`: optional surrounding whitespace, optional sign,
then a non-empty digit string; anything else raises `ValueError`.
(Underscore digit grouping and non-ASCII digits are not modelled; no
concrete input here uses them.) -/
def pyIntOfString (s : List Char) : Except PyErr Int :=
  match pyStripWs s with
  | '-' :: d => if pyIsDigits d then .ok (-(digitsVal d : Int)) else .error (.valueError s)
  | '+' :: d => if pyIsDigits d then .ok (digitsVal d : Int) else .error (.valueError s)
  | d => if pyIsDigits d then .ok (digitsVal d : Int) else .error (.valueError s)

/-- Python `int(...)` applied to a score value. -/
def pyToInt : ScoreVal → Except PyErr Int
  | .vint n => .ok n
  | .vstr s => pyIntOfString s

/-- A decoded LLM JSON payload, keyed by the fields `summarize_repo` reads
with `data.get(key, default)` (`none` = key absent). A decoded payload that
is not a JSON object at all behaves, observably, like a raised call error
and is folded into the client outcome. -/
structure LLMData where
  one_liner_cn : Option (List Char) := none
  core_features : Option (List (List Char)) := none
  use_case : Option (List Char) := none
  score : Option ScoreVal := none
  score_reason : Option (List Char) := none
deriving DecidableEq

deriving instance DecidableEq for Except

/-- The observable behaviour of one provider client: for a repository and an
attempt number, the outcome of `_call_gemini` / `_call_anthropic` — a decoded
payload, or a raised exception (transport failure, or the
`json.JSONDecodeError` from `_clean_json_response`). -/
def LLMClient : Type := Repository → Nat → Except PyErr LLMData

/-- The state of an `AISummarizer` instance that `summarize_repo` /
`summarize_all` read. -/
structure AISummarizer where
  primary_client : Option LLMClient := none
  fallback_client : Option LLMClient := none
  fallback_model : Option (List Char) := none
  top_pick_count : Nat := 3

/-- `AISummarizer.__init__`, as a function of the configuration, of library
availability (`genai is None` / `Anthropic is None` after the optional
imports), and of the behaviours the constructed clients would have: a client
is built exactly when its key is configured and its library is importable.
(SecretStr truthiness is modelled as presence.) -/
def buildSummarizer (st : Settings) (genaiAvailable anthropicAvailable : Bool)
    (geminiBehavior anthropicBehavior : LLMClient) : AISummarizer :=
  { primary_client :=
      if st.gemini_api_key.isSome && genaiAvailable then some geminiBehavior else none
    fallback_client :=
      if st.anthropic_api_key.isSome && anthropicAvailable then some anthropicBehavior else none
    fallback_model := st.fallback_model
    top_pick_count := st.top_pick_count }

/-- Python truthiness of `self.settings.fallback_model` (an `Option` string):
`None` and `""` are falsy. -/
def pyTruthyOptStr : Option (List Char) → Bool
  | none => false
  | some s => !s.isEmpty

def msgNoClients : List Char := "No AI clients configured".toList

def msgPrimaryNoFallback : List Char := "Primary LLM failed and no fallback configured".toList

def msgUnknown : List Char := "Unknown LLM error".toList

/-- The fallback stage of `_call_llm_with_fallback` (lines 241-258): run the
fallback client when it exists *and* `settings.fallback_model` is truthy
(the inner `try/except` re-raises the same exception, so it is the plain
call); otherwise raise the appropriate terminal error. -/
def callFallbackStage (s : AISummarizer) (repo : Repository) (attempt : Nat) :
    Except PyErr LLMData :=
  match s.fallback_client, pyTruthyOptStr s.fallback_model with
  | some f, true => f repo attempt
  | fc, _ =>
    if s.primary_client.isNone && fc.isNone then .error (.valueError msgNoClients)
    else if s.primary_client.isSome then .error (.runtimeError msgPrimaryNoFallback)
    else .error (.runtimeError msgUnknown)

/-- One attempt of the body of `_call_llm_with_fallback` (lines 229-258):
primary client if present (its exception falls through), then the fallback
stage. -/
def callInner (s : AISummarizer) (repo : Repository) (attempt : Nat) : Except PyErr LLMData :=
  match s.primary_client with
  | some p =>
    match p repo attempt with
    | .ok d => .ok d
    | .error _ => callFallbackStage s repo attempt
  | none => callFallbackStage s repo attempt

/-- The `@retry(stop=stop_after_attempt(3), retry=retry_if_exception_type((Exception,)))`
decorator on `_call_llm_with_fallback`: every exception is retried, up to 3
attempts; after the third failure tenacity raises `RetryError` wrapping the
last exception (`reraise` is left at its default `False`). Returns the final
outcome and the number of attempts made. -/
def tenacityRun (g : Nat → Except PyErr LLMData) : Except PyErr LLMData × Nat :=
  match g 1 with
  | .ok d => (.ok d, 1)
  | .error _ =>
    match g 2 with
    | .ok d => (.ok d, 2)
    | .error _ =>
      match g 3 with
      | .ok d => (.ok d, 3)
      | .error e => (.error (.retryError e), 3)

/-- `AISummarizer._call_llm_with_fallback` as seen by its caller. -/
def AISummarizer.call_llm_with_fallback (s : AISummarizer) (repo : Repository) :
    Except PyErr LLMData :=
  (tenacityRun (callInner s repo)).1

/-- Number of attempts the retry wrapper makes for one
`_call_llm_with_fallback` call. -/
def callAttempts (s : AISummarizer) (repo : Repository) : Nat :=
  (tenacityRun (callInner s repo)).2

/-! ## `ProjectSummary` and `summarize_repo` -/

/-- `ai_summarizer.ProjectSummary` (the dataclass defaults are the Lean
field defaults; `error` is the spec's `failure_reason`). -/
structure ProjectSummary where
  repo : Repository
  one_liner_cn : List Char := []
  core_features : List (List Char) := []
  use_case : List Char := []
  score : Int := 3
  score_reason : List Char := []
  is_top_pick : Bool := false
  error : Option (List Char) := none
deriving DecidableEq

def msgParseFailOneLiner : List Char := "解析失败".toList

def featParseFail : List Char := "解析失败，请查看原项目".toList

def msgApiFailOneLiner : List Char := "API 调用失败".toList

def featApiFail : List Char := "API 调用失败，请稍后重试".toList

/-- The `try`-block of `summarize_repo` (lines 264-271): the field
assignments run top to bottom on a summary initialised with the dataclass
defaults; `int(data.get("score", 3))` is the only raising step, and on its
failure the fields already assigned (`one_liner_cn`, `core_features`,
`use_case`) keep their values while `score` and `score_reason` keep their
defaults. `.error (e, partial)` carries the raised exception and the summary
state at the raise point. -/
def trySummarize (repo : Repository) (callResult : Except PyErr LLMData) :
    Except (PyErr × ProjectSummary) ProjectSummary :=
  match callResult with
  | .error e => .error (e, { repo := repo })
  | .ok data =>
    match pyToInt ((data.score).getD (.vint 3)) with
    | .error e =>
      .error (e, { repo := repo
                   one_liner_cn := (data.one_liner_cn).getD []
                   core_features := ((data.core_features).getD []).take 3
                   use_case := (data.use_case).getD [] })
    | .ok n =>
      .ok { repo := repo
            one_liner_cn := (data.one_liner_cn).getD []
            core_features := ((data.core_features).getD []).take 3
            use_case := (data.use_case).getD []
            score := min 5 (max 1 n)
            score_reason := (data.score_reason).getD [] }

/-- The two `except` branches of `summarize_repo` (lines 273-283): the
`json.JSONDecodeError` branch, and the blanket `except Exception` branch.
Both overwrite only `error`, `one_liner_cn` and `core_features`. -/
def applyExcept (repo : Repository) : PyErr × ProjectSummary → ProjectSummary
  | (.jsonDecodeError, sm) =>
    { sm with
      error := some ("JSON parse error: ".toList ++ errStr .jsonDecodeError)
      one_liner_cn := pyOrStr repo.description msgParseFailOneLiner
      core_features := [featParseFail] }
  | (e, sm) =>
    { sm with
      error := some (errStr e)
      one_liner_cn := pyOrStr repo.description msgApiFailOneLiner
      core_features := [featApiFail] }

/-- `summarize_repo` as a function of the tiered-call outcome: run the
`try`-block, and on an exception run the matching `except` branch. -/
def summarizeFrom (repo : Repository) (callResult : Except PyErr LLMData) : ProjectSummary :=
  match trySummarize repo callResult with
  | .ok sm => sm
  | .error p => applyExcept repo p

/-- `AISummarizer.summarize_repo` (lines 260-285). -/
def AISummarizer.summarize_repo (s : AISummarizer) (repo : Repository) : ProjectSummary :=
  summarizeFrom repo (s.call_llm_with_fallback repo)

/-! ## `summarize_all` -/

/-- `ai_summarizer.SummaryResult` (its `all_summaries` property is
`top_picks + quick_looks`). -/
structure SummaryResult where
  top_picks : List ProjectSummary := []
  quick_looks : List ProjectSummary := []
deriving DecidableEq

/-- Stable insertion for a descending sort: insert `x` before the first
element `y` whose key is `≤` the key of `x` (`le y x`). -/
def stableInsertBy (le : α → α → Bool) (x : α) : List α → List α
  | [] => [x]
  | y :: l => if le y x then x :: y :: l else y :: stableInsertBy le x l

/-- Model of Python `sorted(key=..., reverse=True)` / `list.sort(...,
reverse=True)`: a stable sort placing larger keys first, equal keys keeping
their input order. -/
def stableSortDescBy (le : α → α → Bool) : List α → List α
  | [] => []
  | a :: l => stableInsertBy le a (stableSortDescBy le l)

/-- Key comparison for `sorted(repos_with_growth, key=lambda r:
r.stars_today, reverse=True)`. -/
def starsTodayLe (a b : Repository) : Bool :=
  a.stars_today ≤ b.stars_today

/-- Key comparison for `result.top_picks.sort(key=lambda s: (s.score,
s.repo.stars_today), reverse=True)` (lexicographic tuple order). -/
def scoreStarsLe (a b : ProjectSummary) : Bool :=
  a.score < b.score || (a.score == b.score && a.repo.stars_today ≤ b.repo.stars_today)

/-- `repos_with_growth` of `summarize_all`. -/
def growthPool (repos : List Repository) : List Repository :=
  repos.filter (fun r => 0 < r.stars_today)

/-- The repositories whose names `summarize_all` puts in `top_pick_repos`
(lines 297-303): the first `top_pick_count` of the growth pool sorted by
descending `stars_today` when the pool is non-empty, else the first
`top_pick_count` repositories in input order. -/
def selectedRepos (s : AISummarizer) (repos : List Repository) : List Repository :=
  if (growthPool repos).isEmpty then repos.take s.top_pick_count
  else (stableSortDescBy starsTodayLe (growthPool repos)).take s.top_pick_count

/-- One iteration of the summarization loop: summarize, then
`summary.is_top_pick = repo.name in top_pick_repos` (set membership is
membership in the selected-name list). -/
def AISummarizer.summarize_mark (s : AISummarizer) (names : List (List Char))
    (repo : Repository) : ProjectSummary :=
  { s.summarize_repo repo with is_top_pick := repo.name ∈ names }

/-- `AISummarizer.summarize_all` (lines 287-319): empty-input early return;
top-pick name selection; the sequential loop appending each summary to
`top_picks` or `quick_looks` by its mark (equivalently: the two filters, in
input order); final re-sort of `top_picks` by descending `(score,
stars_today)`. -/
def AISummarizer.summarize_all (s : AISummarizer) (repos : List Repository) : SummaryResult :=
  if repos.isEmpty then {} else
  let top_pick_names := (selectedRepos s repos).map (·.name)
  let summaries := repos.map (s.summarize_mark top_pick_names)
  { top_picks := stableSortDescBy scoreStarsLe (summaries.filter (·.is_top_pick))
    quick_looks := summaries.filter (fun sm => !sm.is_top_pick) }

/-! ## Concrete fixtures used by witnesses and counterexamples -/

/-- A plain repository input. -/
def r0 : Repository :=
  { name := "o/r".toList, url := "https://github.com/o/r".toList
    description := [], stars := 0, language := "Python".toList }

/-- A summarizer with neither tier configured. -/
def noClients : AISummarizer := {}

/-- Default settings (`max_repos = 15`, `top_pick_count = 3`). -/
def stDefault : Settings := {}

/-- Settings with `max_repos = 1` (within the pydantic bound `1..25`). -/
def stMax1 : Settings := { max_repos := 1 }

def itemA : SearchItem := { full_name := "a/b".toList, html_url := "https://github.com/a/b".toList }

def itemB : SearchItem := { full_name := "c/d".toList, html_url := "https://github.com/c/d".toList }

/-- A README environment in which every request raises. -/
def readmeEnvFail : ReadmeEnv :=
  { api := .error (.transportError "timeout".toList)
    raw := fun _ => .error (.transportError "timeout".toList) }

/-- Crawl environment: trending fetch raises; the search API responds with
two items. -/
def envTwoItems : CrawlEnv :=
  { trending := .error (.transportError "blocked".toList)
    search := .ok [itemA, itemB]
    readme := fun _ => readmeEnvFail }

/-- A payload whose `score` field is a non-numeric string. -/
def dataBad : LLMData := { score := some (.vstr "abc".toList), use_case := some "u".toList }

/-- Primary tier configured and returning `dataBad` on every attempt. -/
def sumBad : AISummarizer := { primary_client := some (fun _ _ => .ok dataBad) }

/-- A payload whose `score` field is the integer 7. -/
def data7 : LLMData := { one_liner_cn := some "w".toList, score := some (.vint 7) }

/-- Primary tier configured and returning `data7` on every attempt. -/
def sum7 : AISummarizer := { primary_client := some (fun _ _ => .ok data7) }

/-- A well-formed payload (integer score 4, non-empty strings). -/
def dataGood : LLMData :=
  { one_liner_cn := some "好".toList, core_features := some ["f1".toList]
    use_case := some "devs".toList, score := some (.vint 4), score_reason := some "solid".toList }

/-- A client that succeeds with `dataGood` whenever it is invoked. -/
def goodClient : LLMClient := fun _ _ => .ok dataGood

/-- No primary; fallback configured with both a client and a model name. -/
def sFb : AISummarizer :=
  { fallback_client := some goodClient, fallback_model := some "claude-3-5-haiku".toList }

/-- Configuration with fallback credentials present but no fallback model. -/
def stCred : Settings := { anthropic_api_key := some "sk-ant-xxx".toList, fallback_model := none }

/-- The summarizer `__init__` builds from `stCred` (both libraries
importable, Anthropic client working): credentials present, model unset. -/
def sCredNoModel : AISummarizer := buildSummarizer stCred true true goodClient goodClient

/-- Two repositories sharing one name, the first with growth. -/
def rX1 : Repository :=
  { name := "x".toList, url := [], description := [], stars := 10
    language := [], stars_today := 5 }

def rX2 : Repository := { rX1 with stars_today := 0 }

/-- A summarizer with `top_pick_count = 1` and no clients. -/
def sPick1 : AISummarizer := { top_pick_count := 1 }

/-- Two repositories with distinct names, the first with growth. -/
def rA : Repository :=
  { name := "a/one".toList, url := [], description := [], stars := 3
    language := [], stars_today := 7 }

def rB : Repository :=
  { name := "b/two".toList, url := [], description := [], stars := 9
    language := [], stars_today := 0 }

/-- A Markdown image, exactly as `![alt](url)` syntax renders it. -/
def imgMd : List Char := "![logo](x)".toList

/-- A README longer than `MAX_README_CHARS`, beginning with a Markdown
image. -/
def bigInput : List Char := imgMd ++ List.replicate 2001 'a'

/-- `bigInput` without its leading `'!'`. -/
def tail9 : List Char := "[logo](x)".toList ++ List.replicate 2001 'a'

/-- An article whose `h2 a` link resolves to a three-segment path. -/
def artMulti : ArticleData := { name_href := some "/a/b/c".toList }

/-- An article whose link is a well-formed `/owner/repo` path. -/
def artOk : ArticleData := { name_href := some "/good/repo".toList }

/-- The repository `parse_trending_html` produces from `artOk`. -/
def repoGood : Repository :=
  { name := "good/repo".toList, url := "https://github.com/good/repo".toList
    description := [], stars := 0, language := "Unknown".toList, stars_today := 0 }

/-! ## Shared helper lemmas -/

theorem pyOrStr_ne_nil (a b : List Char) (hb : b ≠ []) : pyOrStr a b ≠ [] := by
  unfold pyOrStr
  split
  · exact hb
  · next h => simpa using h

/-- Every failure of Python `int(...)` on a score value is a `ValueError`. -/
theorem pyToInt_error_shape (v : ScoreVal) (e : PyErr) (h : pyToInt v = .error e) :
    ∃ m, e = .valueError m := by
  cases v with
  | vint n => exact absurd h (by simp [pyToInt])
  | vstr s =>
    have h' : pyIntOfString s = .error e := h
    unfold pyIntOfString at h'
    split at h' <;>
      split at h' <;>
      first
        | (injection h' with h2; exact ⟨s, h2.symm⟩)
        | injection h'

/-! ## Claim C9 -/

/-- **C9** (confirmed). README enrichment never propagates a failure: the
success of `crawl` does not depend on the README environment at all (first
conjunct, so the enrichment loop never aborts acquisition); every exception
inside `_fetch_readme` yields the empty string (second conjunct); and in
general `_fetch_readme` returns either the empty string or a text produced
by an explicit `return` of its `try` block (third conjunct). -/
theorem claimC9_thm :
    (∀ (st : Settings) (env : CrawlEnv) (b : Bool),
        (crawl st env b).isOk = (crawlAcquire st env).isOk)
    ∧ (∀ env : ReadmeEnv, (∃ e, fetchReadmeTry env = .error e) → fetch_readme env = [])
    ∧ (∀ env : ReadmeEnv,
        fetch_readme env = [] ∨ fetchReadmeTry env = .ok (some (fetch_readme env))) := by
  refine ⟨?_, ?_, ?_⟩
  · intro st env b
    unfold crawl
    cases h : crawlAcquire st env with
    | error e => rfl
    | ok p => rfl
  · rintro env ⟨e, he⟩
    unfold fetch_readme
    rw [he]
  · intro env
    unfold fetch_readme
    cases h : fetchReadmeTry env with
    | error e => exact .inl rfl
    | ok o =>
      cases o with
      | none => exact .inl rfl
      | some t => exact .inr rfl

/-- Witness for C9: a README environment whose API call raises yields the
empty excerpt. -/
theorem claimC9_witness : fetch_readme readmeEnvFail = [] :=
  claimC9_thm.2.1 readmeEnvFail ⟨.transportError "timeout".toList, rfl⟩

/-! ## Claim C2 -/

/-- **C2** (amended). The trending-scrape path caps its result to
`max_repos` client-side; the search-API path returns one record per response
item with no client-side cap (the request merely asks the server for
`per_page = max_repos`), so its result respects the bound exactly when the
response does. -/
theorem claimC2_amended :
    (∀ (st : Settings) (articles : List ArticleData),
        (parse_trending_html st articles).length ≤ st.max_repos)
    ∧ ∀ items : List SearchItem, (fetch_via_search_api items).length = items.length := by
  constructor
  · intro st articles
    rw [parse_trending_html, List.length_take]
    exact Nat.min_le_left _ _
  · intro items
    simp [fetch_via_search_api]

/-- Counterexample for C2 as stated: with `max_repos = 1`, a failed trending
scrape and a search response of two items, the acquisition result holds two
repositories. -/
theorem claimC2_counterexample :
    (crawl stMax1 envTwoItems true).toOption.map (fun r => r.repos.length) = some 2
    ∧ ¬(2 ≤ stMax1.max_repos) := by decide

/-! ## Claim C4 -/

/-- **C4** (amended). With neither tier configured, each attempt of the
tiered call raises the configuration `ValueError` immediately — but the
outer retry wrapper retries every `Exception`, so the call is attempted 3
times and the caller finally sees a `RetryError` wrapping the configuration
error, not an unretried configuration error. -/
theorem claimC4_amended (s : AISummarizer) (repo : Repository)
    (hp : s.primary_client = none) (hf : s.fallback_client = none) :
    callInner s repo 1 = .error (.valueError msgNoClients)
    ∧ s.call_llm_with_fallback repo = .error (.retryError (.valueError msgNoClients))
    ∧ callAttempts s repo = 3 := by
  have hstage : ∀ n, callInner s repo n = .error (.valueError msgNoClients) := by
    intro n
    simp [callInner, callFallbackStage, hp, hf]
  refine ⟨hstage 1, ?_, ?_⟩ <;>
    simp [AISummarizer.call_llm_with_fallback, callAttempts, tenacityRun, hstage]

/-- Witness for C4 (amended): the no-clients summarizer makes 3 attempts. -/
theorem claimC4_witness : callAttempts noClients r0 = 3 :=
  (claimC4_amended noClients r0 rfl rfl).2.2

/-- Counterexample for C4 as stated: the configuration failure *is* retried
(3 attempts, not 1) and surfaces wrapped in `RetryError`. -/
theorem claimC4_counterexample :
    callAttempts noClients r0 = 3 ∧ (3 : Nat) ≠ 1
    ∧ noClients.call_llm_with_fallback r0 = .error (.retryError (.valueError msgNoClients)) := by
  decide

/-! ## Reduction lemmas for `summarize_repo`, and claims C1, C3, C5 -/

theorem summarizeFrom_error (repo : Repository) (e : PyErr) :
    summarizeFrom repo (.error e) = applyExcept repo (e, { repo := repo }) := rfl

theorem summarizeFrom_ok_ok (repo : Repository) (data : LLMData) (n : Int)
    (h : pyToInt ((data.score).getD (.vint 3)) = .ok n) :
    summarizeFrom repo (.ok data) =
      { repo := repo
        one_liner_cn := (data.one_liner_cn).getD []
        core_features := ((data.core_features).getD []).take 3
        use_case := (data.use_case).getD []
        score := min 5 (max 1 n)
        score_reason := (data.score_reason).getD [] } := by
  simp only [summarizeFrom, trySummarize, h]

theorem summarizeFrom_ok_error (repo : Repository) (data : LLMData) (e : PyErr)
    (h : pyToInt ((data.score).getD (.vint 3)) = .error e) :
    summarizeFrom repo (.ok data) =
      applyExcept repo (e,
        { repo := repo
          one_liner_cn := (data.one_liner_cn).getD []
          core_features := ((data.core_features).getD []).take 3
          use_case := (data.use_case).getD [] }) := by
  simp only [summarizeFrom, trySummarize, h]

/-- Both `except` branches of `summarize_repo` set `error`, overwrite the
headline with a non-empty string (the description, or a placeholder), put a
single placeholder feature, and leave `score` as it was. -/
theorem applyExcept_fields (repo : Repository) (e : PyErr) (sm : ProjectSummary) :
    (applyExcept repo (e, sm)).error.isSome = true
    ∧ (applyExcept repo (e, sm)).one_liner_cn ≠ []
    ∧ (applyExcept repo (e, sm)).core_features ≠ []
    ∧ (applyExcept repo (e, sm)).score = sm.score := by
  cases e <;>
    exact ⟨rfl, pyOrStr_ne_nil _ _ (by decide), by simp [applyExcept], rfl⟩

/-- Neither `except` branch of `summarize_repo` touches `use_case` or
`score_reason`. -/
theorem applyExcept_untouched (repo : Repository) (e : PyErr) (sm : ProjectSummary) :
    (applyExcept repo (e, sm)).use_case = sm.use_case
    ∧ (applyExcept repo (e, sm)).score_reason = sm.score_reason := by
  cases e <;> exact ⟨rfl, rfl⟩

/-- **C1** (amended). `summarize_repo` is total (it is a function into
`ProjectSummary`; every branch of the embedded `try/except` produces a
value), the returned `score` is always in `[1,5]`, and whenever the summary
is degraded (`error` set — both tiers failed, or the score was unparsable),
the headline and the feature list hold non-empty placeholder text.  The
original claim's stronger clause — *every* string field non-blank — fails
because the `except` branches never overwrite `use_case` or `score_reason`:
when the tiered call itself failed both remain empty strings
(`claimC1_counterexample`), and when only the score was unparsable
`use_case` keeps the payload value assigned before `int(...)` raised while
`score_reason` remains empty. -/
theorem claimC1_amended (s : AISummarizer) (repo : Repository) :
    (1 ≤ (s.summarize_repo repo).score ∧ (s.summarize_repo repo).score ≤ 5)
    ∧ ((s.summarize_repo repo).error.isSome = true →
        (s.summarize_repo repo).one_liner_cn ≠ []
          ∧ (s.summarize_repo repo).core_features ≠ [])
    ∧ (∀ e, s.call_llm_with_fallback repo = .error e →
        (s.summarize_repo repo).error.isSome = true
        ∧ (s.summarize_repo repo).use_case = []
        ∧ (s.summarize_repo repo).score_reason = [])
    ∧ ∀ data e, s.call_llm_with_fallback repo = .ok data →
        pyToInt ((data.score).getD (.vint 3)) = .error e →
          (s.summarize_repo repo).error.isSome = true
          ∧ (s.summarize_repo repo).use_case = (data.use_case).getD []
          ∧ (s.summarize_repo repo).score_reason = [] := by
  cases hc : s.call_llm_with_fallback repo with
  | error e =>
    have h := applyExcept_fields repo e ({ repo := repo } : ProjectSummary)
    have hu := applyExcept_untouched repo e ({ repo := repo } : ProjectSummary)
    rw [AISummarizer.summarize_repo, hc, summarizeFrom_error repo e]
    refine ⟨⟨?_, ?_⟩, fun _ => ⟨h.2.1, h.2.2.1⟩, fun _ _ => ⟨h.1, hu.1, hu.2⟩,
      fun data e' hco _ => Except.noConfusion hco⟩
    · rw [h.2.2.2]; exact (by decide : (1 : Int) ≤ 3)
    · rw [h.2.2.2]; exact (by decide : (3 : Int) ≤ 5)
  | ok data =>
    cases hs : pyToInt ((data.score).getD (.vint 3)) with
    | ok n =>
      rw [AISummarizer.summarize_repo, hc, summarizeFrom_ok_ok repo data n hs]
      refine ⟨⟨le_min (by decide) (le_max_left 1 n), min_le_left 5 _⟩, ?_, ?_, ?_⟩
      · intro habs
        simp at habs
      · intro e he
        exact Except.noConfusion he
      · intro data' e' hco hsc
        injection hco with hdd
        subst hdd
        exact Except.noConfusion (hs.symm.trans hsc)
    | error e' =>
      have h := applyExcept_fields repo e'
        ({ repo := repo
           one_liner_cn := (data.one_liner_cn).getD []
           core_features := ((data.core_features).getD []).take 3
           use_case := (data.use_case).getD [] } : ProjectSummary)
      have hu := applyExcept_untouched repo e'
        ({ repo := repo
           one_liner_cn := (data.one_liner_cn).getD []
           core_features := ((data.core_features).getD []).take 3
           use_case := (data.use_case).getD [] } : ProjectSummary)
      rw [AISummarizer.summarize_repo, hc, summarizeFrom_ok_error repo data e' hs]
      refine ⟨⟨?_, ?_⟩, fun _ => ⟨h.2.1, h.2.2.1⟩, fun _ he => Except.noConfusion he, ?_⟩
      · rw [h.2.2.2]; exact (by decide : (1 : Int) ≤ 3)
      · rw [h.2.2.2]; exact (by decide : (3 : Int) ≤ 5)
      · intro data' e'' hco hsc
        injection hco with hdd
        subst hdd
        exact ⟨h.1, hu.1, hu.2⟩

/-- Witness for C1 (amended): the degraded-path guarantees at concrete
inputs — both tiers absent (`noClients`: `use_case`/`score_reason` stay
empty), and an unparsable score (`sumBad`: `use_case` keeps the payload
value). -/
theorem claimC1_witness :
    (1 ≤ (noClients.summarize_repo r0).score ∧ (noClients.summarize_repo r0).score ≤ 5)
    ∧ ((noClients.summarize_repo r0).one_liner_cn ≠ []
        ∧ (noClients.summarize_repo r0).core_features ≠ [])
    ∧ ((noClients.summarize_repo r0).error.isSome = true
        ∧ (noClients.summarize_repo r0).use_case = []
        ∧ (noClients.summarize_repo r0).score_reason = [])
    ∧ (sumBad.summarize_repo r0).use_case = (dataBad.use_case).getD [] :=
  ⟨(claimC1_amended noClients r0).1,
   (claimC1_amended noClients r0).2.1 (by decide),
   (claimC1_amended noClients r0).2.2.1 (.retryError (.valueError msgNoClients)) (by decide),
   ((claimC1_amended sumBad r0).2.2.2 dataBad (.valueError "abc".toList)
     (by decide) (by decide)).2.1⟩

/-- Counterexample for C1 as stated: with both tiers failed, `error` is set
but `use_case` and `score_reason` are left as empty strings — not "filled
with placeholder text". -/
theorem claimC1_counterexample :
    (noClients.summarize_repo r0).error.isSome = true
    ∧ (noClients.summarize_repo r0).use_case = []
    ∧ (noClients.summarize_repo r0).score_reason = [] := by decide

/-- **C3** (amended). Scores from a successfully decoded payload are clamped
into `[1,5]` by `min(5, max(1, int(...)))`: 7 ↦ 5, 0 ↦ 1, absent ↦ 3.  A
non-numeric score raises `ValueError` from `int(...)`, which the blanket
`except Exception` branch catches — the degraded summary carries the
API-failure placeholder (`featApiFail`), *not* the JSON-parse-error branch's
placeholder (`featParseFail`), contrary to the original claim's
"parse-error degraded path". -/
theorem claimC3_amended (s : AISummarizer) (repo : Repository) (data : LLMData)
    (h : s.call_llm_with_fallback repo = .ok data) :
    (data.score = some (.vint 7) → (s.summarize_repo repo).score = 5)
    ∧ (data.score = some (.vint 0) → (s.summarize_repo repo).score = 1)
    ∧ (data.score = none → (s.summarize_repo repo).score = 3)
    ∧ ∀ e, pyToInt ((data.score).getD (.vint 3)) = .error e →
        (s.summarize_repo repo).error.isSome = true
        ∧ (s.summarize_repo repo).core_features = [featApiFail]
        ∧ (s.summarize_repo repo).core_features ≠ [featParseFail] := by
  refine ⟨?_, ?_, ?_, ?_⟩
  · intro h7
    have hs : pyToInt ((data.score).getD (.vint 3)) = .ok 7 := by rw [h7]; rfl
    rw [AISummarizer.summarize_repo, h, summarizeFrom_ok_ok repo data 7 hs]
    exact (by decide : min 5 (max 1 (7 : Int)) = 5)
  · intro h0
    have hs : pyToInt ((data.score).getD (.vint 3)) = .ok 0 := by rw [h0]; rfl
    rw [AISummarizer.summarize_repo, h, summarizeFrom_ok_ok repo data 0 hs]
    exact (by decide : min 5 (max 1 (0 : Int)) = 1)
  · intro hn
    have hs : pyToInt ((data.score).getD (.vint 3)) = .ok 3 := by rw [hn]; rfl
    rw [AISummarizer.summarize_repo, h, summarizeFrom_ok_ok repo data 3 hs]
    exact (by decide : min 5 (max 1 (3 : Int)) = 3)
  · intro e he
    obtain ⟨m, rfl⟩ := pyToInt_error_shape _ _ he
    rw [AISummarizer.summarize_repo, h, summarizeFrom_ok_error repo data _ he]
    exact ⟨rfl, rfl, (by decide : [featApiFail] ≠ [featParseFail])⟩

/-- Witness for C3 (amended): a provider score of 7 is clamped to 5. -/
theorem claimC3_witness : (sum7.summarize_repo r0).score = 5 :=
  (claimC3_amended sum7 r0 data7 rfl).1 rfl

/-- Counterexample for C3 as stated: a non-numeric score lands in the
blanket `except Exception` branch (API-failure placeholder), not the
JSON-parse-error branch. -/
theorem claimC3_counterexample :
    (sumBad.summarize_repo r0).core_features = [featApiFail]
    ∧ featApiFail ≠ featParseFail
    ∧ (sumBad.summarize_repo r0).error.isSome = true := by decide

/-! ## Claim C5 -/

/-- **C5** (amended). If the primary tier is absent or raises and the
fallback tier is *fully* configured — a client (credentials + library) *and*
a truthy `fallback_model` — and its call returns a well-formed payload, then
the tiered call returns that payload on the first attempt and `summarize`
produces its summary from it (no placeholder, `error` unset).  The original
claim required only credentials: `claimC5_counterexample` shows that with
credentials but no `fallback_model` the working fallback client is never
invoked and the summary degrades. -/
theorem claimC5_amended (s : AISummarizer) (repo : Repository) (f : LLMClient)
    (data : LLMData) (n : Int)
    (hp : ∀ p, s.primary_client = some p → ∃ e, p repo 1 = .error e)
    (hf : s.fallback_client = some f)
    (hm : pyTruthyOptStr s.fallback_model = true)
    (hok : f repo 1 = .ok data)
    (hscore : pyToInt ((data.score).getD (.vint 3)) = .ok n) :
    s.call_llm_with_fallback repo = .ok data
    ∧ (s.summarize_repo repo).error = none
    ∧ (s.summarize_repo repo).one_liner_cn = (data.one_liner_cn).getD []
    ∧ (s.summarize_repo repo).use_case = (data.use_case).getD []
    ∧ (s.summarize_repo repo).score = min 5 (max 1 n) := by
  have hstage : callFallbackStage s repo 1 = .ok data := by
    rw [callFallbackStage, hf, hm]
    exact hok
  have hinner : callInner s repo 1 = .ok data := by
    cases hpc : s.primary_client with
    | none => simp only [callInner, hpc]; exact hstage
    | some p =>
      obtain ⟨e, he⟩ := hp p hpc
      simp only [callInner, hpc, he]
      exact hstage
  have hcall : s.call_llm_with_fallback repo = .ok data := by
    simp only [AISummarizer.call_llm_with_fallback, tenacityRun, hinner]
  rw [AISummarizer.summarize_repo, hcall, summarizeFrom_ok_ok repo data n hscore]
  exact ⟨rfl, rfl, rfl, rfl, rfl⟩

/-- Witness for C5 (amended): no primary, fallback client + model set, call
succeeds — the summary is built from the fallback payload. -/
theorem claimC5_witness :
    sFb.call_llm_with_fallback r0 = .ok dataGood
    ∧ (sFb.summarize_repo r0).error = none :=
  have h := claimC5_amended sFb r0 goodClient dataGood 4
    (fun _ hp => Option.noConfusion hp) rfl rfl rfl rfl
  ⟨h.1, h.2.1⟩

/-- Counterexample for C5 as stated: fallback credentials present (the
client exists and would succeed on any invocation), primary absent, but
`fallback_model` unset — `summarize` returns a degraded placeholder, not the
secondary payload. -/
theorem claimC5_counterexample :
    sCredNoModel.fallback_client.isSome = true
    ∧ (sCredNoModel.summarize_repo r0).error.isSome = true
    ∧ (sCredNoModel.summarize_repo r0).one_liner_cn = msgApiFailOneLiner
    ∧ (sCredNoModel.summarize_repo r0).use_case ≠ (dataGood.use_case).getD [] := by decide

/-! ## Claim C8 -/

/-- The head of a `dropWhile p` result does not satisfy `p`. -/
theorem head_dropWhile_not (p : Char → Bool) (l : List Char) (c : Char)
    (h : (l.dropWhile p).head? = some c) : p c = false := by
  induction l with
  | nil => simp at h
  | cons a t ih =>
    rw [List.dropWhile_cons] at h
    split at h
    · exact ih h
    · next hp =>
      simp only [List.head?_cons, Option.some.injEq] at h
      subst h
      simpa using hp

/-- `dropTrailing` returns a prefix, so a non-empty result keeps the head. -/
theorem head?_dropTrailing (p : Char → Bool) (q : List Char) (c : Char)
    (h : (dropTrailing p q).head? = some c) : q.head? = some c := by
  have hpre : dropTrailing p q <+: q := by
    have hs : (q.reverse.dropWhile p) <:+ q.reverse := List.dropWhile_suffix p
    have := List.reverse_prefix.mpr hs
    rwa [List.reverse_reverse] at this
  obtain ⟨t, ht⟩ := hpre
  cases hd : dropTrailing p q with
  | nil => rw [hd] at h; exact Option.noConfusion h
  | cons c0 r =>
    rw [hd] at h ht
    simp only [List.head?_cons, Option.some.injEq] at h
    subst h
    rw [← ht]
    rfl

/-- The last element of a `dropTrailing p` result does not satisfy `p`. -/
theorem getLast?_dropTrailing_not (p : Char → Bool) (q : List Char) (c : Char)
    (h : (dropTrailing p q).getLast? = some c) : p c = false := by
  rw [dropTrailing, List.getLast?_reverse] at h
  exact head_dropWhile_not p q.reverse c h

/-- Inversion of the per-article parser: a produced record's name is the
slash-stripped `href`, non-empty and containing a separator. -/
theorem parseArticle_name (a : ArticleData) (r : Repository) (h : parseArticle a = some r) :
    ∃ href, a.name_href = some href ∧ r.name = pyStripSlash href
      ∧ (pyStripSlash href).isEmpty = false ∧ (pyStripSlash href).contains '/' = true := by
  cases ha : a.name_href with
  | none =>
    simp only [parseArticle, ha] at h
    exact Option.noConfusion h
  | some href =>
    refine ⟨href, rfl, ?_⟩
    simp only [parseArticle, ha] at h
    by_cases hg : ((pyStripSlash href).isEmpty || !((pyStripSlash href).contains '/')) = true
    · rw [if_pos hg] at h
      exact Option.noConfusion h
    · have hne : (pyStripSlash href).isEmpty = false := by
        revert hg
        cases (pyStripSlash href).isEmpty <;> simp
      have hcon : (pyStripSlash href).contains '/' = true := by
        revert hg
        cases hx : (pyStripSlash href).contains '/' <;> simp [hne]
      refine ⟨?_, hne, hcon⟩
      rw [if_neg hg] at h
      cases hst : a.stars_today_text with
      | none =>
        simp only [hst, Option.some.injEq] at h
        rw [← h]
      | some t =>
        simp only [hst] at h
        cases hsp : pySplit t with
        | nil =>
          simp only [hsp] at h
          exact Option.noConfusion h
        | cons tok rest =>
          simp only [hsp, Option.some.injEq] at h
          rw [← h]

/-- **C8** (amended). Every record the trending-HTML parser produces has a
non-empty name that contains at least one `'/'` and neither starts nor ends
with one (so the `owner` prefix is non-empty, as is the text after the last
separator) — but *exactly one* separator is not enforced
(`claimC8_counterexample`: a three-segment link survives the `"/" in name`
guard), and the search-API path copies `full_name` verbatim with no
validation at all. -/
theorem claimC8_amended (st : Settings) (articles : List ArticleData) (r : Repository)
    (hr : r ∈ parse_trending_html st articles) :
    r.name ≠ [] ∧ '/' ∈ r.name
    ∧ (∀ c, r.name.head? = some c → c ≠ '/')
    ∧ (∀ c, r.name.getLast? = some c → c ≠ '/')
    ∧ r.owner ≠ [] := by
  have hr' : r ∈ articles.filterMap parseArticle := List.take_subset _ _ hr
  obtain ⟨a, _, ha⟩ := List.mem_filterMap.mp hr'
  obtain ⟨href, _, hname, hne, hcon⟩ := parseArticle_name a r ha
  have hnm : r.name ≠ [] := by
    rw [hname]
    intro hx
    rw [hx] at hne
    exact Bool.noConfusion hne
  have hhead : ∀ c, r.name.head? = some c → c ≠ '/' := by
    intro c hc
    rw [hname, pyStripSlash] at hc
    have h1 := head?_dropTrailing _ _ _ hc
    have h2 := head_dropWhile_not (fun c => c == '/') href c h1
    simpa using h2
  refine ⟨hnm, ?_, hhead, ?_, ?_⟩
  · rw [hname]
    have : (pyStripSlash href).contains '/' = true := hcon
    simpa using this
  · intro c hc
    rw [hname, pyStripSlash] at hc
    have := getLast?_dropTrailing_not _ _ _ hc
    simpa using this
  · rw [Repository.owner]
    cases hn : r.name with
    | nil => exact absurd hn hnm
    | cons c0 rest =>
      have hc0 : c0 ≠ '/' := hhead c0 (by rw [hn]; rfl)
      have hb : (!(c0 == '/')) = true := by simpa using hc0
      rw [List.takeWhile_cons, hb]
      simp

/-- Witness for C8 (amended): the well-formed link `/good/repo` produces a
record satisfying all the amended guarantees. -/
theorem claimC8_witness :
    repoGood.name ≠ [] ∧ '/' ∈ repoGood.name ∧ repoGood.owner ≠ [] :=
  have h := claimC8_amended stDefault [artOk] repoGood (by decide)
  ⟨h.1, h.2.1, h.2.2.2.2⟩

/-- Counterexample for C8 as stated: the link `/a/b/c` passes the parser's
guard and yields a record whose name has two separators, not exactly one. -/
theorem claimC8_counterexample :
    (parse_trending_html stDefault [artMulti]).map (fun r => (r.name, r.name.count '/'))
      = [("a/b/c".toList, 2)] := by decide
/-! ## Claim C7 -/

/-- A string with no `'!'` is untouched by the first `re.sub` scan (every
match of `!\s*\(.*?\)` starts at a `'!'`). -/
theorem sub1Fuel_no_bang (fuel : Nat) (l : List Char) (hb : '!' ∉ l) (hf : l.length ≤ fuel) :
    sub1Fuel fuel l = l := by
  induction fuel generalizing l with
  | zero => rfl
  | succ f ih =>
    cases l with
    | nil => rfl
    | cons c t =>
      have hc : ¬(c = '!') := fun hx => hb (hx ▸ List.mem_cons_self c t)
      have ht : '!' ∉ t := fun hx => hb (List.mem_cons_of_mem _ hx)
      have hlt : t.length ≤ f := by
        simp only [List.length_cons] at hf
        omega
      simp only [sub1Fuel, if_neg hc]
      rw [ih t ht hlt]

/-- A string with no `'<'` is untouched by the second `re.sub` scan (every
match of `<img[^>]*>` starts at a `'<'`). -/
theorem sub2Fuel_no_lt (fuel : Nat) (l : List Char) (hb : '<' ∉ l) (hf : l.length ≤ fuel) :
    sub2Fuel fuel l = l := by
  induction fuel generalizing l with
  | zero => rfl
  | succ f ih =>
    cases l with
    | nil => rfl
    | cons c t =>
      have hc : ¬(c = '<') := fun hx => hb (hx ▸ List.mem_cons_self c t)
      have ht : '<' ∉ t := fun hx => hb (List.mem_cons_of_mem _ hx)
      have hlt : t.length ≤ f := by
        simp only [List.length_cons] at hf
        omega
      simp only [sub2Fuel, if_neg hc]
      rw [ih t ht hlt]

theorem bigInput_eq : bigInput = '!' :: tail9 := rfl

theorem bang_not_mem_tail9 : '!' ∉ tail9 := by
  intro hmem
  rcases List.mem_append.mp hmem with h | h
  · revert h; decide
  · exact absurd (List.mem_replicate.mp h).2 (by decide)

theorem tail9_length : tail9.length = 2010 := by
  rw [tail9, List.length_append, List.length_replicate,
    (by decide : ("[logo](x)".toList).length = 9)]

/-- The match attempt at `bigInput`'s leading `'!'` fails: after `\s*`
(empty here) the regex requires `'('` but finds `'['` — this is exactly why
`![alt](url)` markup survives `re.sub(r"!\s*\(.*?\)", "", ...)`. -/
theorem tryMatch1_tail9 : tryMatch1 tail9 = none := rfl

/-- One scan step at a `'!'` whose match attempt fails: keep the `'!'` and
resume one character later. -/
theorem sub1Fuel_cons_bang (fuel : Nat) (rest : List Char) (h : tryMatch1 rest = none) :
    sub1Fuel (fuel + 1) ('!' :: rest) = '!' :: sub1Fuel fuel rest := by
  simp only [sub1Fuel, h]
  split <;> rfl

theorem sub1_bigInput : sub1 bigInput = bigInput := by
  rw [sub1, bigInput_eq, List.length_cons]
  rw [sub1Fuel_cons_bang _ _ tryMatch1_tail9]
  rw [sub1Fuel_no_bang _ _ bang_not_mem_tail9 (le_refl _)]

theorem lt_not_mem_bigInput : '<' ∉ bigInput := by
  intro hmem
  rcases List.mem_append.mp hmem with h | h
  · revert h; decide
  · exact absurd (List.mem_replicate.mp h).2 (by decide)

theorem sub2_bigInput : sub2 bigInput = bigInput := by
  rw [sub2]
  exact sub2Fuel_no_lt _ _ lt_not_mem_bigInput (le_refl _)

/-- `str.strip()` is the identity on a string whose first and last
characters are not whitespace. -/
theorem pyStripWs_no_space_ends (l : List Char) (c0 cl : Char)
    (h0 : l.head? = some c0) (h0s : isPySpace c0 = false)
    (hl : l.getLast? = some cl) (hls : isPySpace cl = false) :
    pyStripWs l = l := by
  cases l with
  | nil => exact Option.noConfusion h0
  | cons a t =>
    simp only [List.head?_cons, Option.some.injEq] at h0
    subst h0
    have hdw : (a :: t).dropWhile isPySpace = a :: t := by
      rw [List.dropWhile_cons, h0s]
      simp
    rw [pyStripWs, hdw, dropTrailing]
    cases hr : (a :: t).reverse with
    | nil => exact absurd (List.reverse_eq_nil_iff.mp hr) (by simp)
    | cons b u =>
      have hb : b = cl := by
        have hx := List.head?_reverse (a :: t)
        rw [hr, hl] at hx
        simpa using hx
      subst hb
      rw [List.dropWhile_cons, hls, if_neg Bool.false_ne_true]
      rw [← hr, List.reverse_reverse]

theorem bigInput_length : bigInput.length = 2011 := by
  rw [bigInput_eq, List.length_cons, tail9_length]

/-- The truncated-README shape at `bigInput`. -/
theorem truncate_readme_bigInput :
    truncate_readme bigInput = imgMd ++ List.replicate 1990 'a' ++ truncMarker := by
  have hne : bigInput.isEmpty = false := rfl
  have hlt : MAX_README_CHARS < 2011 := by decide
  have htake : bigInput.take MAX_README_CHARS = imgMd ++ List.replicate 1990 'a' := by
    show (imgMd ++ List.replicate 2001 'a').take MAX_README_CHARS = _
    rw [List.take_append_eq_append_take,
      List.take_of_length_le (by decide : imgMd.length ≤ MAX_README_CHARS),
      List.take_replicate, (by decide : MAX_README_CHARS - imgMd.length = 1990),
      (by decide : (1990 : Nat) ⊓ 2001 = 1990)]
  have hh : (imgMd ++ List.replicate 1990 'a' ++ truncMarker).head? = some '!' := rfl
  have hl : (imgMd ++ List.replicate 1990 'a' ++ truncMarker).getLast? = some ')' := by
    rw [List.getLast?_append]
    rfl
  have hstrip := pyStripWs_no_space_ends _ _ _ hh (by decide) hl (by decide)
  have hoe : (imgMd ++ List.replicate 1990 'a' ++ truncMarker).isEmpty = false := rfl
  simp only [truncate_readme, sub1_bigInput, sub2_bigInput, bigInput_length, hne]
  rw [if_neg Bool.false_ne_true, if_pos hlt, htake, hstrip, pyOrStr, hoe,
    if_neg Bool.false_ne_true]

/-- **C7** (code bug). An input longer than 2000 characters that begins with
Markdown image markup: the output is correctly capped at 2000 characters
plus the truncation marker, but the `![alt](url)` markup survives intact at
the head of the truncated result — the pattern `!\s*\(.*?\)` (the code's own
comment says "Remove images ... Adjusted regex for markdown images") never
matches Markdown image syntax, whose `[alt]` sits between `!` and `(`. -/
theorem claimC7_thm :
    MAX_README_CHARS < bigInput.length
    ∧ truncate_readme bigInput = imgMd ++ List.replicate 1990 'a' ++ truncMarker
    ∧ (truncate_readme bigInput).take 10 = imgMd := by
  refine ⟨by rw [bigInput_length]; decide, truncate_readme_bigInput, ?_⟩
  rw [truncate_readme_bigInput, List.take_append_eq_append_take,
    List.take_append_eq_append_take,
    List.take_of_length_le (by decide : imgMd.length ≤ 10),
    (by decide : 10 - imgMd.length = 0), List.take_zero, List.append_nil]
  rw [List.length_append, List.length_replicate,
    (by decide : imgMd.length = 10), (by decide : 10 - (10 + 1990) = 0), List.take_zero,
    List.append_nil]

/-! ## Sorting lemmas for `summarize_all` -/

theorem stableInsertBy_perm (le : α → α → Bool) (x : α) (l : List α) :
    (stableInsertBy le x l).Perm (x :: l) := by
  induction l with
  | nil => exact List.Perm.refl _
  | cons y t ih =>
    rw [stableInsertBy]
    split
    · exact List.Perm.refl _
    · exact ((ih.cons y).trans (List.Perm.swap x y t))

theorem stableSortDescBy_perm (le : α → α → Bool) (l : List α) :
    (stableSortDescBy le l).Perm l := by
  induction l with
  | nil => exact List.Perm.refl _
  | cons a t ih =>
    rw [stableSortDescBy]
    exact (stableInsertBy_perm le a _).trans (ih.cons a)

theorem stableInsertBy_pairwise (le : α → α → Bool)
    (htrans : ∀ a b c, le a b = true → le b c = true → le a c = true)
    (htot : ∀ a b, le a b = true ∨ le b a = true)
    (x : α) (l : List α) (hl : l.Pairwise (fun a b => le b a = true)) :
    (stableInsertBy le x l).Pairwise (fun a b => le b a = true) := by
  induction l with
  | nil => simp [stableInsertBy]
  | cons y t ih =>
    rw [stableInsertBy]
    split
    · next hxy =>
      rw [List.pairwise_cons]
      refine ⟨?_, hl⟩
      intro b hb
      rcases List.mem_cons.mp hb with rfl | hb
      · exact hxy
      · exact htrans _ _ _ ((List.pairwise_cons.mp hl).1 b hb) hxy
    · next hxy =>
      rw [List.pairwise_cons] at hl ⊢
      refine ⟨?_, ih hl.2⟩
      intro b hb
      rcases List.mem_cons.mp ((stableInsertBy_perm le x t).mem_iff.mp hb) with rfl | hb
      · rcases htot b y with h | h
        · exact h
        · exact absurd h hxy
      · exact hl.1 b hb

theorem stableSortDescBy_pairwise (le : α → α → Bool)
    (htrans : ∀ a b c, le a b = true → le b c = true → le a c = true)
    (htot : ∀ a b, le a b = true ∨ le b a = true) (l : List α) :
    (stableSortDescBy le l).Pairwise (fun a b => le b a = true) := by
  induction l with
  | nil => simp [stableSortDescBy]
  | cons a t ih =>
    rw [stableSortDescBy]
    exact stableInsertBy_pairwise le htrans htot a _ ih

/-! ## Structural lemmas for `summarize_all` -/

theorem summarize_repo_repo (s : AISummarizer) (r : Repository) :
    (s.summarize_repo r).repo = r := by
  rw [AISummarizer.summarize_repo]
  cases hc : s.call_llm_with_fallback r with
  | error e =>
    rw [summarizeFrom_error]
    cases e <;> rfl
  | ok data =>
    cases hs : pyToInt ((data.score).getD (.vint 3)) with
    | ok n => rw [summarizeFrom_ok_ok _ _ _ hs]
    | error e =>
      rw [summarizeFrom_ok_error _ _ _ hs]
      cases e <;> rfl

theorem summarize_mark_repo (s : AISummarizer) (names : List (List Char)) (r : Repository) :
    (s.summarize_mark names r).repo = r :=
  summarize_repo_repo s r

theorem map_repo_of_map_mark (s : AISummarizer) (names : List (List Char))
    (l : List Repository) :
    ((l.map (s.summarize_mark names)).map (·.repo)) = l := by
  rw [List.map_map]
  have hx : ((fun sm : ProjectSummary => sm.repo) ∘ s.summarize_mark names) = id := by
    funext r
    exact summarize_mark_repo s names r
  rw [hx, List.map_id]

theorem summaries_filter_marked (s : AISummarizer) (names : List (List Char))
    (repos : List Repository) :
    (repos.map (s.summarize_mark names)).filter (·.is_top_pick)
      = (repos.filter (fun r => decide (r.name ∈ names))).map (s.summarize_mark names) := by
  rw [List.filter_map]
  rfl

theorem summaries_filter_unmarked (s : AISummarizer) (names : List (List Char))
    (repos : List Repository) :
    (repos.map (s.summarize_mark names)).filter (fun sm => !sm.is_top_pick)
      = (repos.filter (fun r => !(decide (r.name ∈ names)))).map (s.summarize_mark names) := by
  rw [List.filter_map]
  rfl

/-- With pairwise-distinct names, filtering the input by membership of the
name in the selection's names recovers exactly the selection (as a
permutation: the filter is in input order, the selection in its own). -/
theorem filter_name_mem_perm (repos sel : List Repository)
    (hn : (repos.map (·.name)).Nodup)
    (hsub : sel ⊆ repos) (hselnd : sel.Nodup) :
    (repos.filter (fun r => decide (r.name ∈ sel.map (·.name)))).Perm sel := by
  have hrnd : repos.Nodup := List.Nodup.of_map _ hn
  have hfnd : (repos.filter (fun r => decide (r.name ∈ sel.map (·.name)))).Nodup :=
    hrnd.filter _
  apply (List.perm_ext_iff_of_nodup hfnd hselnd).mpr
  intro a
  rw [List.mem_filter]
  constructor
  · rintro ⟨ha, hmem⟩
    obtain ⟨b, hb, hbn⟩ := List.mem_map.mp (of_decide_eq_true hmem)
    have hba : b = a := List.inj_on_of_nodup_map hn (hsub hb) ha hbn
    exact hba ▸ hb
  · intro ha
    exact ⟨hsub ha, decide_eq_true (List.mem_map_of_mem _ ha)⟩

theorem selectedRepos_subset (s : AISummarizer) (repos : List Repository) :
    selectedRepos s repos ⊆ repos := by
  rw [selectedRepos]
  split
  · exact List.take_subset _ _
  · intro a ha
    have h1 := List.take_subset _ _ ha
    have h2 := (stableSortDescBy_perm starsTodayLe (growthPool repos)).mem_iff.mp h1
    exact (List.filter_sublist _).subset h2

theorem selectedRepos_nodup (s : AISummarizer) (repos : List Repository)
    (hrnd : repos.Nodup) : (selectedRepos s repos).Nodup := by
  rw [selectedRepos]
  split
  · exact (List.take_sublist _ _).nodup hrnd
  · exact (List.take_sublist _ _).nodup
      ((stableSortDescBy_perm starsTodayLe (growthPool repos)).symm.nodup (hrnd.filter _))

theorem selectedRepos_length_le (s : AISummarizer) (repos : List Repository) :
    (selectedRepos s repos).length ≤ s.top_pick_count := by
  rw [selectedRepos]
  split <;> (rw [List.length_take]; exact Nat.min_le_left _ _)

theorem summarize_all_empty (s : AISummarizer) (repos : List Repository)
    (h : repos.isEmpty = true) : s.summarize_all repos = {} := by
  unfold AISummarizer.summarize_all
  rw [h, if_pos rfl]

theorem summarize_all_eq (s : AISummarizer) (repos : List Repository)
    (h : repos.isEmpty = false) :
    s.summarize_all repos =
      { top_picks := stableSortDescBy scoreStarsLe
          ((repos.map (s.summarize_mark ((selectedRepos s repos).map (·.name)))).filter
            (·.is_top_pick))
        quick_looks := (repos.map (s.summarize_mark ((selectedRepos s repos).map
          (·.name)))).filter (fun sm => !sm.is_top_pick) } := by
  unfold AISummarizer.summarize_all
  rw [h, if_neg Bool.false_ne_true]

/-- Top picks and quick looks, at the repository level, under distinct
names. -/
theorem summarize_all_parts (s : AISummarizer) (repos : List Repository)
    (hn : (repos.map (·.name)).Nodup) :
    (((s.summarize_all repos).top_picks.map (·.repo)).Perm (selectedRepos s repos))
    ∧ (s.summarize_all repos).quick_looks.map (·.repo)
        = repos.filter (fun r => !(decide (r.name ∈ (selectedRepos s repos).map (·.name)))) := by
  cases hre : repos.isEmpty with
  | true =>
    have hrepos : repos = [] := List.isEmpty_iff.mp hre
    subst hrepos
    rw [summarize_all_empty s [] rfl]
    constructor
    · show List.Perm [] (selectedRepos s [])
      rw [selectedRepos]
      split
      · simp
      · next h => exact absurd rfl h
    · rfl
  | false =>
    rw [summarize_all_eq s repos hre]
    have hrnd : repos.Nodup := List.Nodup.of_map _ hn
    constructor
    · have h1 : ((stableSortDescBy scoreStarsLe
          ((repos.map (s.summarize_mark ((selectedRepos s repos).map (·.name)))).filter
            (·.is_top_pick))).map (·.repo)).Perm
          (((repos.map (s.summarize_mark ((selectedRepos s repos).map (·.name)))).filter
            (·.is_top_pick)).map (·.repo)) :=
        (stableSortDescBy_perm scoreStarsLe _).map _
      have h2 : ((repos.map (s.summarize_mark ((selectedRepos s repos).map (·.name)))).filter
            (·.is_top_pick)).map (·.repo)
          = repos.filter (fun r => decide (r.name ∈ (selectedRepos s repos).map (·.name))) := by
        rw [summaries_filter_marked, map_repo_of_map_mark]
      have h3 := filter_name_mem_perm repos (selectedRepos s repos) hn
        (selectedRepos_subset s repos) (selectedRepos_nodup s repos hrnd)
      exact (h1.trans (h2 ▸ List.Perm.refl _)).trans h3
    · rw [summaries_filter_unmarked, map_repo_of_map_mark]

/-- **C6** (amended, with the distinct-names hypothesis the original claim
lacks). Writing `selectedRepos` for the selection the code performs — the
first `top_pick_count` of the growth pool sorted by descending `stars_today`
(stable), or of the input order when no repository has positive growth —
the top picks are exactly the selected repositories (as a permutation;
`top_picks` is re-sorted by score) and the quick looks are exactly the
others, in input order.  The final two conjuncts substantiate "by descending
`stars_today`, ties stable": the sort is a permutation of the growth pool
that is pairwise non-increasing on `stars_today`.  Without distinct names
the claim is false (`claimC6_counterexample`). -/
theorem claimC6_amended (s : AISummarizer) (repos : List Repository)
    (hn : (repos.map (·.name)).Nodup) :
    (((s.summarize_all repos).top_picks.map (·.repo)).Perm (selectedRepos s repos))
    ∧ ((s.summarize_all repos).quick_looks.map (·.repo)
        = repos.filter (fun r => !(decide (r.name ∈ (selectedRepos s repos).map (·.name)))))
    ∧ ((stableSortDescBy starsTodayLe (growthPool repos)).Perm (growthPool repos))
    ∧ (stableSortDescBy starsTodayLe (growthPool repos)).Pairwise
        (fun a b => b.stars_today ≤ a.stars_today) := by
  obtain ⟨h1, h2⟩ := summarize_all_parts s repos hn
  refine ⟨h1, h2, stableSortDescBy_perm _ _, ?_⟩
  have hp := stableSortDescBy_pairwise starsTodayLe
    (fun a b c hab hbc => by
      rw [starsTodayLe] at *
      exact decide_eq_true (le_trans (of_decide_eq_true hab) (of_decide_eq_true hbc)))
    (fun a b => by
      rw [starsTodayLe, starsTodayLe]
      rcases le_total a.stars_today b.stars_today with h | h
      · exact Or.inl (decide_eq_true h)
      · exact Or.inr (decide_eq_true h))
    (growthPool repos)
  exact hp.imp (fun h => of_decide_eq_true h)

/-- Witness for C6 (amended): two distinct-name repositories, one with
growth, `top_pick_count = 1` — the top picks are exactly the selected one. -/
theorem claimC6_witness :
    ((sPick1.summarize_all [rA, rB]).top_picks.map (·.repo)).Perm
      (selectedRepos sPick1 [rA, rB]) :=
  (claimC6_amended sPick1 [rA, rB] (by decide)).1

/-- Counterexample for C6 as stated (no distinctness hypothesis): two
repositories share the name `"x"`, the first with growth; with
`top_pick_count = 1` the claim demands exactly one top pick and the second
repository among the quick looks, but name-set marking makes both top picks
and leaves no quick looks. -/
theorem claimC6_counterexample :
    (sPick1.summarize_all [rX1, rX2]).top_picks.length = 2
    ∧ (sPick1.summarize_all [rX1, rX2]).quick_looks = []
    ∧ sPick1.top_pick_count = 1 := by decide

/-- **C10** (confirmed). With pairwise-distinct repository names, at most
`top_pick_count` summaries are marked `is_top_pick` (counted over
`all_summaries = top_picks ++ quick_looks`) and `top_picks` holds at most
`top_pick_count` summaries. -/
theorem claimC10_thm (s : AISummarizer) (repos : List Repository)
    (hn : (repos.map (·.name)).Nodup) :
    (s.summarize_all repos).top_picks.length ≤ s.top_pick_count
    ∧ ((s.summarize_all repos).top_picks ++ (s.summarize_all repos).quick_looks).countP
        (·.is_top_pick) ≤ s.top_pick_count := by
  have hparts := summarize_all_parts s repos hn
  have hlen : (s.summarize_all repos).top_picks.length ≤ s.top_pick_count := by
    have he := hparts.1.length_eq
    rw [List.length_map] at he
    rw [he]
    exact selectedRepos_length_le s repos
  refine ⟨hlen, ?_⟩
  rw [List.countP_append]
  have hq : (s.summarize_all repos).quick_looks.countP (·.is_top_pick) = 0 := by
    rw [List.countP_eq_zero]
    intro a ha
    cases hre : repos.isEmpty with
    | true =>
      rw [summarize_all_empty s repos hre] at ha
      exact absurd ha (List.not_mem_nil a)
    | false =>
      rw [summarize_all_eq s repos hre] at ha
      have := (List.mem_filter.mp ha).2
      simp only [Bool.not_eq_true'] at this
      simp [this]
  rw [hq, Nat.add_zero]
  exact le_trans (List.countP_le_length _) hlen

/-- Witness for C10: two distinct-name repositories, `top_pick_count = 1`. -/
theorem claimC10_witness :
    (sPick1.summarize_all [rA, rB]).top_picks.length ≤ sPick1.top_pick_count :=
  (claimC10_thm sPick1 [rA, rB] (by decide)).1
